import Mathlib

/-!
Verification of the markup_fmt dprint plugin (`src/dprint_plugin/src/lib.rs`)
against its natural-language specification.

The file shallowly embeds the plugin's code: `build_additional_config`, the
result aggregation in `format`, the delegation-callback interpretation, the
synthetic file-name construction, and the language-detection fallback.
The configuration resolver (`config::resolve_config`, in the `config` module
whose source is not part of this tree) is modelled from the spec.
-/

namespace MarkupFmt

/-- Quote style, mirroring `markup_fmt::config::Quotes`. -/
inductive Quotes where
  | double
  | single
deriving DecidableEq, Repr

/-- External script formatter family, mirroring `markup_fmt::config::ScriptFormatter`. -/
inductive ScriptFormatter where
  | dprint
  | biome
deriving DecidableEq, Repr

/-- The fields of `markup_fmt::config::LanguageOptions` used by the plugin. -/
structure LanguageOptions where
  quotes : Quotes
  script_formatter : Option ScriptFormatter
deriving DecidableEq, Repr

/-- The fields of `markup_fmt::config::FormatOptions` used by the plugin. -/
structure FormatOptions where
  language : LanguageOptions
deriving DecidableEq, Repr

/-- Formatting hints for an embedded fragment, mirroring `markup_fmt::Hints`.
On the plugin's wasm32 target `usize` is 32-bit, so the numeric hints are
natural numbers below `2^32`; the bound is not imposed here because
`build_additional_config` is defined for every value. -/
structure Hints where
  print_width : Nat
  attr : Bool
  indent_level : Nat
  ext : String
deriving DecidableEq, Repr

/-- A dprint configuration value (`dprint_core::configuration::ConfigKeyValue`),
restricted to the variants the plugin produces. -/
inductive ConfigValue where
  | int (i : Int)
  | str (s : String)
  | bool (b : Bool)
deriving DecidableEq, Repr

/-- A `ConfigKeyMap`: an insertion-ordered key/value map.  The plugin only
ever inserts distinct keys, so insertion is modelled as appending. -/
abbrev ConfigKeyMap := List (String × ConfigValue)

/-- The empty map, `ConfigKeyMap::new()`. -/
def ConfigKeyMap.new : ConfigKeyMap := []

/-- Insertion, `ConfigKeyMap::insert` (no key is inserted twice by the plugin). -/
def ConfigKeyMap.insert (m : ConfigKeyMap) (k : String) (v : ConfigValue) : ConfigKeyMap :=
  m ++ [(k, v)]

/-- Lookup in a `ConfigKeyMap`. -/
def ConfigKeyMap.get (m : ConfigKeyMap) (k : String) : Option ConfigValue :=
  List.lookup k m

/-- Rust's `usize as i32` cast: truncate to the low 32 bits and reinterpret
as a signed 32-bit integer. -/
def asI32 (n : Nat) : Int :=
  if n % 2 ^ 32 < 2 ^ 31 then ((n % 2 ^ 32 : Nat) : Int)
  else ((n % 2 ^ 32 : Nat) : Int) - 2 ^ 32

/-- The function `build_additional_config` from `src/dprint_plugin/src/lib.rs`,
line for line. -/
def build_additional_config (hints : Hints) (config : FormatOptions) : ConfigKeyMap :=
  let additional_config := ConfigKeyMap.new
  let additional_config := additional_config.insert "lineWidth" (.int (asI32 hints.print_width))
  let additional_config := additional_config.insert "printWidth" (.int (asI32 hints.print_width))
  let additional_config :=
    additional_config.insert "fileIndentLevel" (.int (asI32 hints.indent_level))
  let additional_config :=
    if hints.attr then
      let additional_config :=
        match config.language.quotes with
        | .double =>
          if config.language.script_formatter = some .biome then
            additional_config.insert "quoteStyle" (.str "single")
          else
            additional_config.insert "quoteStyle" (.str "alwaysSingle")
        | .single =>
          if config.language.script_formatter = some .biome then
            additional_config.insert "quoteStyle" (.str "double")
          else
            additional_config.insert "quoteStyle" (.str "alwaysDouble")
      if hints.ext = "css" then
        additional_config.insert "singleLineTopLevelDeclarations" (.bool true)
      else
        additional_config
    else
      additional_config
  additional_config

/-- The result of the outer formatting pass, mirroring `markup_fmt::FormatError`:
either a syntax-level failure (`FormatError::Syntax`) or a list of external
delegation failures in the order encountered (`FormatError::External`).
Errors are modelled by their display strings. -/
inductive FormatError where
  | synError (e : String)
  | extFailures (es : List String)
deriving DecidableEq, Repr

/-- The header string of the aggregated external-failure message in `format`. -/
def extFailureHeader : String := "failed to format code with external formatter:\n"

/-- The message built by the fold in `format` (lines 91-97 of lib.rs):
starting from the header, append each failure's display followed by a newline. -/
def aggregateExtFailures (es : List String) : String :=
  es.foldl (fun msg error => msg ++ (error ++ "\n")) extFailureHeader

/-- The `match format_result` tail of `format` (lines 87-100 of lib.rs):
`Ok(code)` becomes `Ok(Some(code.into_bytes()))` (bytes kept as the string),
a syntax failure is surfaced directly, and external failures are folded
into one error message. -/
def handleFormatResult (format_result : Except FormatError String) :
    Except String (Option String) :=
  match format_result with
  | .ok code => .ok (some code)
  | .error (.synError err) => .error err
  | .error (.extFailures errors) => .error (aggregateExtFailures errors)

/-- One step of UTF-8 validation bookkeeping: a byte in `0x80..=0xBF`. -/
def isContByte (b : Nat) : Bool := 0x80 ≤ b && b ≤ 0xBF

/-- UTF-8 decoding of a byte sequence into code points, with exactly the
validity rules of Rust's `String::from_utf8`: reject overlong encodings,
surrogates and code points above `0x10FFFF`.  Returns `none` on any
invalid sequence. -/
def utf8Decode : List Nat → Option (List Nat)
  | [] => some []
  | b :: rest =>
    if b < 0x80 then
      (utf8Decode rest).map (b :: ·)
    else if b < 0xC2 then
      none
    else if b ≤ 0xDF then
      match rest with
      | b1 :: rest1 =>
        if isContByte b1 then
          (utf8Decode rest1).map (((b - 0xC0) * 0x40 + (b1 - 0x80)) :: ·)
        else none
      | [] => none
    else if b ≤ 0xEF then
      match rest with
      | b1 :: b2 :: rest2 =>
        if isContByte b1 && isContByte b2 &&
            (b ≠ 0xE0 || 0xA0 ≤ b1) && (b ≠ 0xED || b1 ≤ 0x9F) then
          (utf8Decode rest2).map
            (((b - 0xE0) * 0x1000 + (b1 - 0x80) * 0x40 + (b2 - 0x80)) :: ·)
        else none
      | _ => none
    else if b ≤ 0xF4 then
      match rest with
      | b1 :: b2 :: b3 :: rest3 =>
        if isContByte b1 && isContByte b2 && isContByte b3 &&
            (b ≠ 0xF0 || 0x90 ≤ b1) && (b ≠ 0xF4 || b1 ≤ 0x8F) then
          (utf8Decode rest3).map
            (((b - 0xF0) * 0x40000 + (b1 - 0x80) * 0x1000 +
              (b2 - 0x80) * 0x40 + (b3 - 0x80)) :: ·)
        else none
      | _ => none
    else none

/-- Rust's `String::from_utf8`: decode a byte vector into a string, or fail. -/
def stringFromUtf8 (bytes : List Nat) : Option String :=
  (utf8Decode bytes).map fun cps => String.mk (cps.map Char.ofNat)

/-- The interpretation of the host-format callback's result in `format`
(lines 79-85 of lib.rs, the `.and_then` closure): a reported error
propagates; `Some(bytes)` is decoded as UTF-8 text and used (a decode
failure becomes an error); `None` keeps the original fragment text. -/
def interpretHostResult (code : String) (result : Except String (Option (List Nat))) :
    Except String String :=
  match result with
  | .error e => .error e
  | .ok (some bytes) =>
    match stringFromUtf8 bytes with
    | some s => .ok s
    | none => .error "invalid utf-8 sequence"
  | .ok none => .ok code

/-- The synthetic file name built for a delegated fragment (lines 65-71 of
lib.rs): the parent's file name, then `"#."`, then the fragment's target
extension. -/
def syntheticFileName (file_name : String) (ext : String) : String :=
  file_name ++ "#." ++ ext

/-- The extension of a file name: the characters after the last `'.'`. -/
def extensionOf (s : String) : String :=
  ((s.toList.reverse.takeWhile (· ≠ '.')).reverse).asString

/-- A computation that may panic, modelling Rust's `panic!` /
`Option::expect`. -/
inductive PanicOr (α : Type) where
  | panicked (msg : String)
  | value (a : α)
deriving DecidableEq, Repr

/-- The synthetic-path construction of the delegated-formatting closure
(lines 65-74 of lib.rs): `request.file_path.file_name()` (here an
`Option String`, `none` when the path has no final file-name component)
is unwrapped with `expect("missing file name")` — a panic when absent —
then the fragment extension is appended. -/
def delegatedFilePath (file_name : Option String) (ext : String) : PanicOr String :=
  match file_name with
  | none => .panicked "missing file name"
  | some name => .value (syntheticFileName name ext)

/-- The delegated-fragment closure run over the fragments the printer
encounters: each fragment first builds the synthetic path (which panics when
the parent path has no file name).  The callback itself is abstracted as a
function from the fragment's extension and text to a result; this models
that `format` reaches `expect` once per delegated fragment. -/
def runDelegations (file_name : Option String)
    (fragments : List (String × String))
    (callback : String → String → Except String (Option (List Nat))) :
    PanicOr (List (Except String String)) :=
  match fragments with
  | [] => .value []
  | (ext, code) :: rest =>
    match delegatedFilePath file_name ext with
    | .panicked msg => .panicked msg
    | .value _ =>
      match runDelegations file_name rest callback with
      | .panicked msg => .panicked msg
      | .value results => .value (interpretHostResult code (callback ext code) :: results)

/-- The markup languages of `markup_fmt::Language`. -/
inductive Language where
  | html
  | vue
  | svelte
  | astro
  | jinja
  | vento
  | xml
deriving DecidableEq, Repr

/-- Modelled from the spec: `markup_fmt::detect_language` (not under `src/`) —
"Detect the document's language from its file identifier"; detection is by
the file identifier's extension and fails (`none`) for unknown extensions. -/
def detect_language (file_path : String) : Option Language :=
  match extensionOf file_path with
  | "html" => some .html
  | "vue" => some .vue
  | "svelte" => some .svelte
  | "astro" => some .astro
  | "jinja" => some .jinja
  | "vto" => some .vento
  | "xml" => some .xml
  | _ => none

/-- The language selection in `format` (line 58 of lib.rs):
`detect_language(request.file_path).unwrap_or(markup_fmt::Language::Html)`. -/
def chosenLanguage (file_path : String) : Language :=
  (detect_language file_path).getD .html

/-! ### Configuration resolver, modelled from the spec

The resolver lives in the plugin's `config` module, whose source is not part
of this tree; only its entry point (`resolve_config`, lib.rs lines 40-46) and
its tests are.  The definitions below are modelled from the spec: §4.1's
algorithm (seed from defaults, walk keys, one diagnostic per invalid key,
structural precedence resolved at lookup time) and §6's key grammar
(`setting`, `<lang>.setting`, `customBlock`, `<lang>.customBlock`,
`<lang>.customBlock.<blockName>`). -/

/-- Policy for a custom block, mirroring `markup_fmt::config::VueCustomBlock`
("treat-as-language-tagged, squash-into-parent, or drop-entirely"). -/
inductive CustomBlockPolicy where
  | langAttribute
  | squash
  | none
deriving DecidableEq, Repr

/-- The embedded languages with per-language overrides (spec §3: "e.g. Vue,
Svelte, Astro, HTML"). -/
inductive Lang where
  | vue
  | svelte
  | astro
  | html
deriving DecidableEq, Repr

/-- Modelled from the spec: a raw configuration value — "untyped scalar value
(string/bool/number)" (§3). -/
inductive RawValue where
  | str (s : String)
  | bool (b : Bool)
  | int (i : Int)
deriving DecidableEq, Repr

/-- Modelled from the spec: the recognized key grammar of §6, structurally.
Keys are represented by their parsed shape; `unknown` carries a key that
matches none of the recognized patterns.  `printName` below recovers the
concrete spelling of each key. -/
inductive ConfigKey where
  | printWidth
  | quotes
  | scriptIndent
  | styleIndent
  | langScriptIndent (l : Lang)
  | langStyleIndent (l : Lang)
  | customBlockGlobal
  | customBlockLang (l : Lang)
  | customBlockNamed (l : Lang) (block : String)
  | unknown (key : String)
deriving DecidableEq, Repr

/-- The concrete spelling of a language scope token. -/
def Lang.name : Lang → String
  | .vue => "vue"
  | .svelte => "svelte"
  | .astro => "astro"
  | .html => "html"

/-- The concrete spelling of a configuration key (the inverse of parsing the
key grammar of §6). -/
def ConfigKey.printName : ConfigKey → String
  | .printWidth => "printWidth"
  | .quotes => "quotes"
  | .scriptIndent => "scriptIndent"
  | .styleIndent => "styleIndent"
  | .langScriptIndent l => l.name ++ ".scriptIndent"
  | .langStyleIndent l => l.name ++ ".styleIndent"
  | .customBlockGlobal => "customBlock"
  | .customBlockLang l => l.name ++ ".customBlock"
  | .customBlockNamed l b => l.name ++ ".customBlock." ++ b
  | .unknown k => k

/-- Modelled from the spec: RawConfig — "mapping from string key to untyped
scalar value ..., keys unique, order irrelevant" (§3), with keys in parsed
form. -/
abbrev RawConfig := List (ConfigKey × RawValue)

/-- Modelled from the spec: GlobalDefaults — "immutable mapping providing
fallback values (e.g. default line width)" (§3). -/
structure GlobalDefaults where
  lineWidth : Option Nat
deriving DecidableEq, Repr

/-- Modelled from the spec: Diagnostic — `{property_name, message}` (§3). -/
structure Diagnostic where
  property_name : String
  message : String
deriving DecidableEq, Repr

/-- A storage slot of the resolved configuration.  Spec §4.1.5 and §9: the
three custom-block tiers (and the per-language overrides) are "three
independent stores" consulted lazily at lookup time, so the configuration is
a single store keyed by slot. -/
inductive Slot where
  | pw
  | quotes
  | scriptIndent
  | styleIndent
  | langScript (l : Lang)
  | langStyle (l : Lang)
  | cbGlobal
  | cbLang (l : Lang)
  | cbNamed (l : Lang) (block : String)
deriving DecidableEq, Repr

/-- A parsed, validated configuration value stored in a slot. -/
inductive CVal where
  | nat (n : Nat)
  | quotes (q : Quotes)
  | bool (b : Bool)
  | policy (p : CustomBlockPolicy)
deriving DecidableEq, Repr

/-- Modelled from the spec: the resolved configuration as a store from slots
to optional parsed values; base slots are seeded, per-language override slots
and custom-block tiers are absent unless configured. -/
def Store := Slot → Option CVal

/-- Enum-value normalization (spec §4.1.4): case- and separator-insensitive,
so a compact concatenation and a hyphenated form of a multi-word label
resolve to the same variant. -/
def normalizeEnum (s : String) : String :=
  (s.replace "-" "").toLower

/-- Parse a custom-block policy value ("langAttribute" / "lang-attribute",
"squash", "none", modulo case and separators). -/
def parsePolicy (s : String) : Option CustomBlockPolicy :=
  match normalizeEnum s with
  | "langattribute" => some .langAttribute
  | "squash" => some .squash
  | "none" => some .none
  | _ => Option.none

/-- Parse a quote-style value. -/
def parseQuotes (s : String) : Option Quotes :=
  match normalizeEnum s with
  | "double" => some .double
  | "single" => some .single
  | _ => Option.none

/-- The slot a recognized key writes to (`none` for unrecognized keys). -/
def ConfigKey.slot : ConfigKey → Option Slot
  | .printWidth => some .pw
  | .quotes => some .quotes
  | .scriptIndent => some .scriptIndent
  | .styleIndent => some .styleIndent
  | .langScriptIndent l => some (.langScript l)
  | .langStyleIndent l => some (.langStyle l)
  | .customBlockGlobal => some .cbGlobal
  | .customBlockLang l => some (.cbLang l)
  | .customBlockNamed l b => some (.cbNamed l b)
  | .unknown _ => Option.none

/-- Validate a raw value against its key's declared domain (spec §4.1.3:
enumerated strings, booleans, positive integers), producing the parsed value
to store, or `none` when the value is invalid for that key. -/
def parseValueFor : ConfigKey → RawValue → Option CVal
  | .printWidth, .int i => if 0 < i then some (.nat i.toNat) else Option.none
  | .quotes, .str s => (parseQuotes s).map .quotes
  | .scriptIndent, .bool b => some (.bool b)
  | .styleIndent, .bool b => some (.bool b)
  | .langScriptIndent _, .bool b => some (.bool b)
  | .langStyleIndent _, .bool b => some (.bool b)
  | .customBlockGlobal, .str s => (parsePolicy s).map .policy
  | .customBlockLang _, .str s => (parsePolicy s).map .policy
  | .customBlockNamed _ _, .str s => (parsePolicy s).map .policy
  | _, _ => Option.none

/-- The update a key/value entry performs, if any: the target slot together
with the validated value.  An unrecognized key or an invalid value yields no
update (spec §4.1.3: "leave the corresponding field at its previously seeded
value — do not apply the invalid override"). -/
def entryUpdate (kv : ConfigKey × RawValue) : Option (Slot × CVal) :=
  match kv.1.slot with
  | Option.none => Option.none
  | some s => (parseValueFor kv.1 kv.2).map fun v => (s, v)

/-- The diagnostic a key/value entry produces, if any: exactly one per
unrecognized key or invalid value (spec §4.1.3, §7). -/
def entryDiagnostic (kv : ConfigKey × RawValue) : Option Diagnostic :=
  match kv.1.slot with
  | Option.none => some ⟨kv.1.printName, "unknown config key"⟩
  | some _ =>
    match parseValueFor kv.1 kv.2 with
    | some _ => Option.none
    | Option.none =>
      some ⟨kv.1.printName, "invalid value for config `" ++ kv.1.printName ++ "`"⟩

/-- Apply one raw-config entry to the store. -/
def applyEntry (c : Store) (kv : ConfigKey × RawValue) : Store :=
  match entryUpdate kv with
  | Option.none => c
  | some (s, v) => Function.update c s (some v)

/-- Modelled from the spec: seeding (§4.1.1) — "Seed every field of
ResolvedConfig from GlobalDefaults (or a hardcoded built-in default where
GlobalDefaults has none)." -/
def seedStore (g : GlobalDefaults) : Store := fun s =>
  match s with
  | .pw => some (.nat (g.lineWidth.getD 80))
  | .quotes => some (.quotes .double)
  | .scriptIndent => some (.bool false)
  | .styleIndent => some (.bool false)
  | _ => Option.none

/-- The resolved configuration store: seed, then walk the keys. -/
def resolveStore (raw : RawConfig) (g : GlobalDefaults) : Store :=
  raw.foldl applyEntry (seedStore g)

/-- The ordered diagnostics of a resolution (spec §3: "accumulated in an
ordered sequence, one per invalid key encountered"). -/
def resolveDiagnostics (raw : RawConfig) : List Diagnostic :=
  raw.filterMap entryDiagnostic

/-- Modelled from the spec: `resolve(raw, global) -> (ResolvedConfig,
sequence<Diagnostic>)` (§4.1) — the total resolution function. -/
def resolve (raw : RawConfig) (g : GlobalDefaults) : Store × List Diagnostic :=
  (resolveStore raw g, resolveDiagnostics raw)

/-- The CustomBlockPolicy accessor (spec §3/§4.1.5): a pure lookup resolving
the three tiers — specific block name, then per-language default, then global
default, then the built-in default — at lookup time. -/
def customBlockGet (c : Store) (l : Lang) (block : String) : CustomBlockPolicy :=
  match c (.cbNamed l block) with
  | some (.policy p) => p
  | _ =>
    match c (.cbLang l) with
    | some (.policy p) => p
    | _ =>
      match c .cbGlobal with
      | some (.policy p) => p
      | _ => .langAttribute

/-- The resolved print width: the seeded/overridden value of the `pw` slot. -/
def printWidthGet (c : Store) : Nat :=
  match c .pw with
  | some (.nat n) => n
  | _ => 80

/-- Modelled from the spec's words (for comparison with the source, which
tests `hints.ext == "css"`): whether a target extension "indicates a
stylesheet-like language". -/
def indicatesStylesheetLike (ext : String) : Bool :=
  ext = "css" || ext = "scss" || ext = "sass" || ext = "less"

/-- Each failure's display on its own line, in order: the enumeration the
aggregated error message carries after its header. -/
def joinLines : List String → String
  | [] => ""
  | e :: es => e ++ "\n" ++ joinLines es

/-- The i32 cast is the identity on values below `2^31`. -/
theorem asI32_eq_of_lt {n : Nat} (h : n < 2 ^ 31) : asI32 n = n := by
  have hlt : n < 2 ^ 32 := lt_trans h (by norm_num)
  unfold asI32
  rw [Nat.mod_eq_of_lt hlt, if_pos h]

/-- Claim C1: for every delegated fragment in an attribute-value context,
`build_additional_config` sets a quote-style override opposite to the
resolved config's quote style, using the softer "prefer" form ("single" /
"double") exactly when the configured script formatter is Biome, and the
stricter "always" form ("alwaysSingle" / "alwaysDouble") otherwise. -/
theorem quoteStyle_override_opposite (hints : Hints) (config : FormatOptions)
    (hattr : hints.attr = true) :
    (config.language.quotes = .double → config.language.script_formatter = some .biome →
      (build_additional_config hints config).get "quoteStyle" = some (.str "single")) ∧
    (config.language.quotes = .double → config.language.script_formatter ≠ some .biome →
      (build_additional_config hints config).get "quoteStyle" = some (.str "alwaysSingle")) ∧
    (config.language.quotes = .single → config.language.script_formatter = some .biome →
      (build_additional_config hints config).get "quoteStyle" = some (.str "double")) ∧
    (config.language.quotes = .single → config.language.script_formatter ≠ some .biome →
      (build_additional_config hints config).get "quoteStyle" = some (.str "alwaysDouble")) := by
  refine ⟨fun hq hf => ?_, fun hq hf => ?_, fun hq hf => ?_, fun hq hf => ?_⟩ <;>
    simp only [build_additional_config, ConfigKeyMap.new, ConfigKeyMap.insert,
      ConfigKeyMap.get, hattr, hq, if_pos, if_true] <;>
    first
      | (rw [if_pos hf]; split <;> simp [List.lookup])
      | (rw [if_neg hf]; split <;> simp [List.lookup])

/-- Witness for C1 at a concrete attribute-value fragment: double quotes with
the dprint formatter family force the "alwaysSingle" override. -/
theorem quoteStyle_override_opposite_witness :
    (build_additional_config ⟨80, true, 0, "ts"⟩ ⟨⟨.double, some .dprint⟩⟩).get "quoteStyle" =
      some (.str "alwaysSingle") :=
  (quoteStyle_override_opposite ⟨80, true, 0, "ts"⟩ ⟨⟨.double, some .dprint⟩⟩
    rfl).2.1 rfl (by decide)

/-- Counterexample to claim C2 as stated: "scss" indicates a stylesheet-like
language and the fragment is in an attribute-value context, yet the derived
configuration does not contain the single-line top-level-declarations flag —
the source tests for the exact extension "css" only. -/
theorem singleLineTopLevel_scss_counterexample :
    indicatesStylesheetLike "scss" = true ∧
    (build_additional_config ⟨80, true, 0, "scss"⟩
        ⟨⟨.double, some .dprint⟩⟩).get "singleLineTopLevelDeclarations" = Option.none := by
  constructor
  · decide
  · rfl

/-- Claim C2 (amended): the single-line top-level-declarations flag is present
(set to `true`) in the derived configuration exactly when the fragment's
target extension is `"css"` and the context is an attribute value; in every
other case — in particular for every fragment not in an attribute-value
context — the flag is absent. -/
theorem singleLineTopLevel_iff_css_attr (hints : Hints) (config : FormatOptions) :
    (build_additional_config hints config).get "singleLineTopLevelDeclarations" =
      (if hints.attr = true ∧ hints.ext = "css" then some (.bool true) else Option.none) := by
  cases hattr : hints.attr <;>
    cases hq : config.language.quotes <;>
      simp only [build_additional_config, ConfigKeyMap.new, ConfigKeyMap.insert,
        ConfigKeyMap.get, hattr, hq, Bool.false_eq_true, if_false, if_true] <;>
      split_ifs <;> simp_all [List.lookup]

/-- Counterexample to claim C4 as stated: at `print_width = 2^31` (legal for
the 32-bit `usize` of the plugin's wasm32 target) the `as i32` cast wraps, so
the stored line width is `-2^31`, not `hints.print_width`. -/
theorem lineWidth_overflow_counterexample :
    (build_additional_config ⟨2 ^ 31, false, 0, "ts"⟩ ⟨⟨.double, some .dprint⟩⟩).get
        "lineWidth" = some (.int (-(2 ^ 31))) ∧
    (build_additional_config ⟨2 ^ 31, false, 0, "ts"⟩ ⟨⟨.double, some .dprint⟩⟩).get
        "lineWidth" ≠ some (.int (2 ^ 31)) := by
  constructor
  · rfl
  · decide

/-- Claim C4 (amended): the derived configuration always contains
`lineWidth`, `printWidth` (both the i32 cast of `hints.print_width`) and
`fileIndentLevel` (the i32 cast of `hints.indent_level`), regardless of
attribute context or extension; the stored values equal the hints whenever
they fit in a signed 32-bit integer (in particular for every realistic
width/indent), and are the wrapped i32 values otherwise. -/
theorem width_and_indent_always_set (hints : Hints) (config : FormatOptions) :
    (build_additional_config hints config).get "lineWidth" =
      some (.int (asI32 hints.print_width)) ∧
    (build_additional_config hints config).get "printWidth" =
      some (.int (asI32 hints.print_width)) ∧
    (build_additional_config hints config).get "fileIndentLevel" =
      some (.int (asI32 hints.indent_level)) ∧
    (hints.print_width < 2 ^ 31 → asI32 hints.print_width = hints.print_width) ∧
    (hints.indent_level < 2 ^ 31 → asI32 hints.indent_level = hints.indent_level) := by
  refine ⟨?_, ?_, ?_, fun h => asI32_eq_of_lt h, fun h => asI32_eq_of_lt h⟩ <;>
    cases hattr : hints.attr <;>
      cases hq : config.language.quotes <;>
        simp only [build_additional_config, ConfigKeyMap.new, ConfigKeyMap.insert,
          ConfigKeyMap.get, hattr, hq, Bool.false_eq_true, if_false, if_true] <;>
        first
          | (split_ifs <;> simp [List.lookup])
          | simp [List.lookup]

/-- Witness for C4 (amended) at a concrete fragment: width 80 and indent 2
are stored verbatim. -/
theorem width_and_indent_always_set_witness :
    (build_additional_config ⟨80, true, 2, "css"⟩ ⟨⟨.single, some .biome⟩⟩).get "lineWidth" =
      some (.int 80) ∧ asI32 80 = 80 ∧ asI32 2 = 2 := by
  have h := width_and_indent_always_set ⟨80, true, 2, "css"⟩ ⟨⟨.single, some .biome⟩⟩
  exact ⟨by rw [h.1]; decide, h.2.2.2.1 (by decide), h.2.2.2.2 (by decide)⟩

/-- The fold of `format` produces the header followed by each failure's
display, newline-terminated, in order. -/
theorem aggregateExtFailures_eq (es : List String) :
    aggregateExtFailures es = extFailureHeader ++ joinLines es := by
  suffices h : ∀ acc : String, es.foldl (fun msg error => msg ++ (error ++ "\n")) acc =
      acc ++ joinLines es by
    exact h extFailureHeader
  induction es with
  | nil => intro acc; simp [joinLines]
  | cons e es ih =>
    intro acc
    simp only [List.foldl_cons, joinLines, ih, String.append_assoc]

/-- Claim C3: the `format` operation surfaces a syntax-level failure of the
outer pass directly; one or more external delegation failures become a single
error whose message enumerates each failure in the order encountered; and a
successful `Some` result is returned exactly when the outer pass succeeded
(which requires zero delegated failures, since any delegated failure makes
the outer pass report `FormatError::External`). -/
theorem format_result_aggregation (format_result : Except FormatError String) :
    (∀ e, format_result = .error (.synError e) →
      handleFormatResult format_result = .error e) ∧
    (∀ es, format_result = .error (.extFailures es) →
      handleFormatResult format_result = .error (extFailureHeader ++ joinLines es)) ∧
    (∀ code, format_result = .ok code →
      handleFormatResult format_result = .ok (some code)) ∧
    (∀ out, handleFormatResult format_result = .ok out →
      ∃ code, format_result = .ok code ∧ out = some code) := by
  refine ⟨?_, ?_, ?_, ?_⟩
  · rintro e rfl; rfl
  · rintro es rfl
    simp [handleFormatResult, aggregateExtFailures_eq]
  · rintro code rfl; rfl
  · intro out h
    match format_result with
    | .ok code => exact ⟨code, rfl, by simpa [handleFormatResult] using h.symm⟩
    | .error (.synError e) => simp [handleFormatResult] at h
    | .error (.extFailures es) => simp [handleFormatResult] at h

/-- Witness for C3 at concrete outcomes: two external failures are merged
into one enumerated message, and a syntax failure is surfaced directly. -/
theorem format_result_aggregation_witness :
    handleFormatResult (.error (.extFailures ["fail one", "fail two"])) =
      .error "failed to format code with external formatter:\nfail one\nfail two\n" ∧
    handleFormatResult (.error (.synError "syn")) = .error "syn" := by
  constructor
  · have h := (format_result_aggregation
      (.error (.extFailures ["fail one", "fail two"]))).2.1 ["fail one", "fail two"] rfl
    rw [h]; rfl
  · exact (format_result_aggregation (.error (.synError "syn"))).1 "syn" rfl

/-- Claim C5: the document's language is detected from the file identifier,
and when detection fails the `format` operation proceeds with HTML as the
default markup language instead of erroring. -/
theorem language_detection_fallback (file_path : String) :
    chosenLanguage file_path = (detect_language file_path).getD .html ∧
    (detect_language file_path = Option.none → chosenLanguage file_path = .html) := by
  refine ⟨rfl, fun h => ?_⟩
  simp [chosenLanguage, h]

/-- Witness for C5: an `.svg` file has no detectable markup language and
falls back to HTML. -/
theorem language_detection_fallback_witness :
    detect_language "image.svg" = Option.none ∧ chosenLanguage "image.svg" = .html :=
  ⟨rfl, (language_detection_fallback "image.svg").2 rfl⟩

/-- Claim C6: the host-callback result is interpreted as follows — valid
UTF-8 replacement bytes become the fragment's result; the `None` signal keeps
the original fragment text; bytes that fail UTF-8 decoding yield an error
(an external-formatter failure); a reported error propagates. -/
theorem host_result_interpretation (code : String)
    (result : Except String (Option (List Nat))) :
    (result = .ok Option.none → interpretHostResult code result = .ok code) ∧
    (∀ bytes s, result = .ok (some bytes) → stringFromUtf8 bytes = some s →
      interpretHostResult code result = .ok s) ∧
    (∀ bytes, result = .ok (some bytes) → stringFromUtf8 bytes = Option.none →
      interpretHostResult code result = .error "invalid utf-8 sequence") ∧
    (∀ e, result = .error e → interpretHostResult code result = .error e) := by
  refine ⟨?_, ?_, ?_, ?_⟩
  · rintro rfl; rfl
  · rintro bytes s rfl hdec
    simp [interpretHostResult, hdec]
  · rintro bytes rfl hdec
    simp [interpretHostResult, hdec]
  · rintro e rfl; rfl

/-- Witness for C6 at concrete callback outcomes: bytes `[72, 105]` decode to
`"Hi"` and are used; the byte `[255]` is invalid UTF-8 and errors; `None`
keeps the original text. -/
theorem host_result_interpretation_witness :
    interpretHostResult "x" (.ok (some [72, 105])) = .ok "Hi" ∧
    interpretHostResult "x" (.ok (some [255])) = .error "invalid utf-8 sequence" ∧
    interpretHostResult "x" (.ok Option.none) = .ok "x" :=
  ⟨(host_result_interpretation "x" (.ok (some [72, 105]))).2.1 [72, 105] "Hi" rfl rfl,
   (host_result_interpretation "x" (.ok (some [255]))).2.2.1 [255] rfl rfl,
   (host_result_interpretation "x" (.ok Option.none)).1 rfl⟩

/-- Applying `takeWhile` to a block of satisfying elements followed by a
failing one returns exactly the block. -/
theorem takeWhile_block {p : Char → Bool} (l : List Char) (x : Char) (r : List Char)
    (hl : ∀ c ∈ l, p c = true) (hx : p x = false) :
    (l ++ x :: r).takeWhile p = l := by
  induction l with
  | nil => simp [List.takeWhile_cons, hx]
  | cons c l ih =>
    have hc : p c = true := hl c (by simp)
    simp only [List.cons_append, List.takeWhile_cons, hc, if_true]
    rw [ih fun d hd => hl d (by simp [hd])]

/-- Claim C7: the synthetic identifier for a delegated fragment is the parent
file's name, then the separator `"#."`, then the fragment's target extension;
consequently (for a dot-free extension) the identifier's extension — what an
external formatter selects its rules by — is exactly the target extension. -/
theorem synthetic_identifier (file_name ext : String)
    (hext : ∀ c ∈ ext.toList, c ≠ '.') :
    syntheticFileName file_name ext = file_name ++ "#." ++ ext ∧
    extensionOf (syntheticFileName file_name ext) = ext := by
  refine ⟨rfl, ?_⟩
  unfold extensionOf syntheticFileName
  have hdata : (file_name ++ "#." ++ ext).toList =
      (file_name.toList ++ ['#', '.']) ++ ext.toList := by
    show (file_name ++ "#." ++ ext).data = (file_name.data ++ ['#', '.']) ++ ext.data
    rw [String.data_append, String.data_append]
  rw [hdata, List.reverse_append, List.reverse_append]
  have hblock : ∀ c ∈ ext.toList.reverse, (c ≠ '.' : Bool) = true := by
    intro c hc
    have := hext c (List.mem_reverse.mp hc)
    simpa using this
  rw [show ['#', '.'].reverse ++ file_name.toList.reverse =
      '.' :: ('#' :: file_name.toList.reverse) from rfl]
  rw [takeWhile_block ext.toList.reverse '.' ('#' :: file_name.toList.reverse) hblock
    (by simp)]
  rw [List.reverse_reverse]
  exact String.asString_toList ext

/-- Witness for C7: for parent `"page.vue"` and extension `"ts"`, the
synthetic identifier is `"page.vue#.ts"`, whose extension is `"ts"`. -/
theorem synthetic_identifier_witness :
    syntheticFileName "page.vue" "ts" = "page.vue#.ts" ∧
    extensionOf (syntheticFileName "page.vue" "ts") = "ts" := by
  have h := synthetic_identifier "page.vue" "ts" (by decide)
  exact ⟨by rw [h.1]; rfl, h.2⟩

/-- Claim C10: when the document's file path has no final file-name component
and the printer delegates at least one embedded fragment, `format` panics
with `expect("missing file name")` rather than returning a classified error;
with a file name present, the delegation loop never panics. -/
theorem missing_file_name_panic (fragments : List (String × String))
    (callback : String → String → Except String (Option (List Nat)))
    (hne : fragments ≠ []) :
    runDelegations Option.none fragments callback = .panicked "missing file name" ∧
    ∀ name, ∃ results, runDelegations (some name) fragments callback = .value results := by
  constructor
  · match fragments with
    | [] => exact absurd rfl hne
    | (ext, code) :: rest => rfl
  · intro name
    clear hne
    induction fragments with
    | nil => exact ⟨[], rfl⟩
    | cons f rest ih =>
      obtain ⟨rs, hrs⟩ := ih
      exact ⟨interpretHostResult f.2 (callback f.1 f.2) :: rs, by
        simp [runDelegations, delegatedFilePath, hrs]⟩

/-- Witness for C10: a single delegated fragment under a path with no
file-name component panics; the same fragment under `"index.vue"` does not. -/
theorem missing_file_name_panic_witness :
    runDelegations Option.none [("ts", "let x = 1")] (fun _ _ => .ok Option.none) =
      .panicked "missing file name" ∧
    runDelegations (some "index.vue") [("ts", "let x = 1")] (fun _ _ => .ok Option.none) =
      .value [.ok "let x = 1"] := by
  have h := missing_file_name_panic [("ts", "let x = 1")] (fun _ _ => .ok Option.none)
    (by simp)
  refine ⟨h.1, ?_⟩
  obtain ⟨rs, hrs⟩ := h.2 "index.vue"
  rw [hrs]
  have : rs = [.ok "let x = 1"] := by
    have := hrs.symm.trans (rfl :
      runDelegations (some "index.vue") [("ts", "let x = 1")] (fun _ _ => .ok Option.none) =
        .value [.ok "let x = 1"])
    cases this
    rfl
  rw [this]

/-- A diagnostic always names the key that produced it. -/
theorem entryDiagnostic_property_name {kv : ConfigKey × RawValue} {d : Diagnostic}
    (h : entryDiagnostic kv = some d) : d.property_name = kv.1.printName := by
  unfold entryDiagnostic at h
  cases hs : kv.1.slot with
  | none =>
    rw [hs] at h
    cases h
    rfl
  | some s =>
    rw [hs] at h
    cases hp : parseValueFor kv.1 kv.2 with
    | none =>
      rw [hp] at h
      cases h
      rfl
    | some v =>
      rw [hp] at h
      cases h

/-- Applying `filterMap` then `map` yields an ordered sublist of the mapped
input when the partial function determines the mapped value. -/
theorem filterMap_map_sublist {α β γ : Type} (f : α → Option β) (g : β → γ) (k : α → γ)
    (l : List α) (h : ∀ a d, f a = some d → g d = k a) :
    ((l.filterMap f).map g).Sublist (l.map k) := by
  induction l with
  | nil => simp
  | cons a l ih =>
    cases ha : f a with
    | none =>
      simp only [List.filterMap_cons, ha, List.map_cons]
      exact ih.cons (k a)
    | some d =>
      simp only [List.filterMap_cons, ha, List.map_cons, h a d ha]
      exact ih.cons₂ (k a)

/-- Claim C8: resolution is total — for every raw configuration and global
defaults it returns a fully populated configuration together with an ordered
diagnostic sequence; there is at most one diagnostic per supplied key, each
diagnostic names a supplied key (in input order), and every custom-block
lookup on the resolved configuration yields a concrete policy (never an
absence), no matter how many keys are malformed or invalid. -/
theorem resolve_total (raw : RawConfig) (g : GlobalDefaults) :
    ((resolve raw g).2.map Diagnostic.property_name).Sublist
      (raw.map fun kv => kv.1.printName) ∧
    (resolve raw g).2.length ≤ raw.length ∧
    (∀ l block, customBlockGet (resolve raw g).1 l block = .langAttribute ∨
      customBlockGet (resolve raw g).1 l block = .squash ∨
      customBlockGet (resolve raw g).1 l block = .none) := by
  have hsub : ((resolve raw g).2.map Diagnostic.property_name).Sublist
      (raw.map fun kv => kv.1.printName) := by
    refine filterMap_map_sublist entryDiagnostic Diagnostic.property_name
      (fun kv => kv.1.printName) raw ?_
    intro a d hd
    exact entryDiagnostic_property_name hd
  refine ⟨hsub, ?_, ?_⟩
  · have := hsub.length_le
    simpa using this
  · intro l block
    cases customBlockGet (resolve raw g).1 l block with
    | langAttribute => exact Or.inl rfl
    | squash => exact Or.inr (Or.inl rfl)
    | none => exact Or.inr (Or.inr rfl)

/-- Witness for C8 at a concrete raw configuration holding one invalid value
and one valid key: at most two diagnostics, named in order from the keys, and
the custom-block lookup still yields a policy. -/
theorem resolve_total_witness :
    ((resolve [(.customBlockLang .vue, .str "invalid-value"), (.printWidth, .int 100)]
        ⟨Option.none⟩).2.map Diagnostic.property_name).Sublist
      (([(.customBlockLang .vue, .str "invalid-value"),
        (.printWidth, .int 100)] : RawConfig).map fun kv => kv.1.printName) ∧
    (customBlockGet (resolve [(.customBlockLang .vue, .str "invalid-value"),
        (.printWidth, .int 100)] ⟨Option.none⟩).1 .vue "i18n" = .langAttribute ∨
      customBlockGet (resolve [(.customBlockLang .vue, .str "invalid-value"),
        (.printWidth, .int 100)] ⟨Option.none⟩).1 .vue "i18n" = .squash ∨
      customBlockGet (resolve [(.customBlockLang .vue, .str "invalid-value"),
        (.printWidth, .int 100)] ⟨Option.none⟩).1 .vue "i18n" = .none) := by
  have h := resolve_total
    [(.customBlockLang .vue, .str "invalid-value"), (.printWidth, .int 100)] ⟨Option.none⟩
  exact ⟨h.1, h.2.2 .vue "i18n"⟩

/-- A recognized key's slot determines the key: the key grammar maps distinct
keys to distinct slots. -/
theorem slot_inj {k₁ k₂ : ConfigKey} {s : Slot}
    (h₁ : k₁.slot = some s) (h₂ : k₂.slot = some s) : k₁ = k₂ := by
  cases k₁ <;> cases k₂ <;>
    simp only [ConfigKey.slot, Option.some.injEq] at h₁ h₂ <;>
    (try cases h₁) <;>
    simp_all

/-- The slot an entry's update writes to is the entry key's slot. -/
theorem entryUpdate_slot {kv : ConfigKey × RawValue} {s : Slot} {v : CVal}
    (h : entryUpdate kv = some (s, v)) : kv.1.slot = some s := by
  unfold entryUpdate at h
  cases hs : kv.1.slot with
  | none => rw [hs] at h; cases h
  | some s0 =>
    rw [hs] at h
    cases hp : parseValueFor kv.1 kv.2 with
    | none => rw [hp] at h; cases h
    | some v0 =>
      rw [hp] at h
      cases h
      rfl

/-- Entries with distinct keys commute: they write to distinct slots (or do
not write at all). -/
theorem applyEntry_comm (z : Store) (x y : ConfigKey × RawValue) (h : x.1 ≠ y.1) :
    applyEntry (applyEntry z x) y = applyEntry (applyEntry z y) x := by
  unfold applyEntry
  cases hx : entryUpdate x with
  | none => rfl
  | some ux =>
    cases hy : entryUpdate y with
    | none => rfl
    | some uy =>
      obtain ⟨sx, vx⟩ := ux
      obtain ⟨sy, vy⟩ := uy
      have hsx := entryUpdate_slot hx
      have hsy := entryUpdate_slot hy
      have hne : sy ≠ sx := by
        intro hss
        exact h (slot_inj hsx (hss ▸ hsy))
      exact (Function.update_comm hne (some vy) (some vx) z).symm

/-- Claim C9: for raw configurations holding the same key/value pairs (keys
unique, as RawConfig requires) in different relative orders, resolution
produces the same configuration store — in particular the same
custom-block-policy lookup for every language and block name — because
precedence is structural and resolved at lookup time, not by overwrite
order. -/
theorem resolve_order_independent (raw₁ raw₂ : RawConfig) (g : GlobalDefaults)
    (hperm : raw₁.Perm raw₂) (hnodup : (raw₁.map Prod.fst).Nodup) :
    resolveStore raw₁ g = resolveStore raw₂ g ∧
    ∀ l block, customBlockGet (resolveStore raw₁ g) l block =
      customBlockGet (resolveStore raw₂ g) l block := by
  have hinj := List.inj_on_of_nodup_map hnodup
  have hcomm : ∀ x ∈ raw₁, ∀ y ∈ raw₁, ∀ z : Store,
      applyEntry (applyEntry z x) y = applyEntry (applyEntry z y) x := by
    intro x hx y hy z
    by_cases hxy : x.1 = y.1
    · have : x = y := hinj hx hy hxy
      rw [this]
    · exact applyEntry_comm z x y hxy
  have hstore : resolveStore raw₁ g = resolveStore raw₂ g :=
    hperm.foldl_eq' hcomm (seedStore g)
  exact ⟨hstore, fun l block => by rw [hstore]⟩

/-- Witness for C9: swapping a per-language custom-block default and a
block-specific policy gives the same resolved lookups. -/
theorem resolve_order_independent_witness :
    resolveStore [(.customBlockLang .vue, .str "squash"),
        (.customBlockNamed .vue "i18n", .str "none")] ⟨Option.none⟩ =
      resolveStore [(.customBlockNamed .vue "i18n", .str "none"),
        (.customBlockLang .vue, .str "squash")] ⟨Option.none⟩ ∧
    customBlockGet (resolveStore [(.customBlockLang .vue, .str "squash"),
        (.customBlockNamed .vue "i18n", .str "none")] ⟨Option.none⟩) .vue "docs" =
      customBlockGet (resolveStore [(.customBlockNamed .vue "i18n", .str "none"),
        (.customBlockLang .vue, .str "squash")] ⟨Option.none⟩) .vue "docs" := by
  have h := resolve_order_independent
    [(.customBlockLang .vue, .str "squash"), (.customBlockNamed .vue "i18n", .str "none")]
    [(.customBlockNamed .vue "i18n", .str "none"), (.customBlockLang .vue, .str "squash")]
    ⟨Option.none⟩ (by decide) (by decide)
  exact ⟨h.1, h.2 .vue "docs"⟩

end MarkupFmt
